import Mathlib

/-!
Verification development for the editor orchestration core (`src/editor.rs`).

The `Editor` struct and all its methods are translated from `src/editor.rs`.
The `Layout` type and its operations (`compute`, `add_left`,
`remove_component_id`), the `Prompt`, and the concrete panes live outside the
given sources; those definitions are modelled from the spec and marked as such
in their doc comments.  External collaborators (panes, the prompt's own key
handler, the file system, the job pool) are represented by explicit behaviour
fields and an event trace recording every call the orchestrator makes to them.
-/

namespace Zee

/-- ComponentId from the source: pane identifiers are plain integers. -/
abbrev ComponentId := Nat

/-- PROMPT_ID constant from the source (`const PROMPT_ID: ComponentId = 0`). -/
def PROMPT_ID : ComponentId := 0

/-- PROMPT_HEIGHT constant from the source (`const PROMPT_HEIGHT: usize = 1`). -/
def PROMPT_HEIGHT : Nat := 1

/-- SPLASH_ID constant from the source (`const SPLASH_ID: ComponentId = 1`). -/
def SPLASH_ID : ComponentId := 1

/-- Rect from the ui module: a position and a size, flattened to four fields. -/
structure Rect where
  x : Nat
  y : Nat
  width : Nat
  height : Nat
deriving DecidableEq, Repr

/-- Flex weight of a layout child. Modelled from the spec: FlexWeight is
Fixed(size) or Stretched. -/
inductive Flex where
  | fixed (size : Nat)
  | stretched
deriving DecidableEq, Repr

/-- Split direction of a layout node. Modelled from the spec. -/
inductive LayoutDirection where
  | horizontal
  | vertical
deriving DecidableEq, Repr

mutual
/-- Layout tree. Modelled from the spec: tagged union of a Leaf(PaneId) and a
Node carrying a direction and an ordered list of (child, flex weight) pairs. -/
inductive Layout where
  | component (id : ComponentId)
  | node (direction : LayoutDirection) (children : LayoutChildren)

/-- Ordered children of a layout node, each carrying a flex weight. -/
inductive LayoutChildren where
  | nil
  | cons (child : Layout) (flex : Flex) (rest : LayoutChildren)
end

/-- LaidComponentId from the source: a pane id, its resolved rectangle and its
traversal-order frame id for one layout computation. -/
structure LaidComponentId where
  id : ComponentId
  frame : Rect
  frame_id : Nat
deriving DecidableEq, Repr

/-- Length of a rectangle along a split direction. Modelled from the spec. -/
def axisLen (d : LayoutDirection) (r : Rect) : Nat :=
  match d with
  | .horizontal => r.width
  | .vertical => r.height

/-- Sub-rectangle of `r` starting at `off` along direction `d` with extent
`len`. Modelled from the spec. -/
def subRect (d : LayoutDirection) (r : Rect) (off len : Nat) : Rect :=
  match d with
  | .horizontal => ⟨r.x + off, r.y, len, r.height⟩
  | .vertical => ⟨r.x, r.y + off, r.width, len⟩

/-- Fixed extent of a flex weight (a stretched child contributes none). -/
def flexFixed : Flex → Nat
  | .fixed n => n
  | .stretched => 0

/-- Whether a flex weight is stretched. -/
def isStretched : Flex → Bool
  | .stretched => true
  | .fixed _ => false

/-- Flex weights of a children list, in order. -/
def LayoutChildren.flexes : LayoutChildren → List Flex
  | .nil => []
  | .cons _ f rest => f :: rest.flexes

/-- Walk the children assigning extents: a fixed child takes its exact size
clipped to the space left, a stretched child takes the precomputed share
clipped to the space left. Modelled from the spec. -/
def sizesGo (avail share : Nat) : List Flex → List Nat
  | [] => []
  | f :: rest =>
    let sz := match f with
      | .fixed n => min n avail
      | .stretched => min share avail
    sz :: sizesGo (avail - sz) share rest

/-- Extents allocated to the children of a node: fixed children get their
exact sizes first, the remaining space is divided evenly among stretched
children; insufficient space clips fixed children and gives stretched children
zero. Modelled from the spec (the Layout implementation is outside src/). -/
def childSizes (total : Nat) (flexes : List Flex) : List Nat :=
  let fixedSum := (flexes.map flexFixed).sum
  let k := (flexes.filter isStretched).length
  let share := if k = 0 then 0 else (total - fixedSum) / k
  sizesGo total share flexes

mutual
/-- Layout::compute. Modelled from the spec: depth-first traversal; each leaf
appends a LaidComponent with the next frame id (strictly increasing, the
counter starts at 1 at the call sites); a node splits its frame along its
direction among its children. Returns the appended records and the counter. -/
def Layout.compute : Layout → Rect → Nat → List LaidComponentId × Nat
  | .component i, r, c => ([⟨i, r, c⟩], c + 1)
  | .node d ch, r, c => computeCh d ch (childSizes (axisLen d r) ch.flexes) r 0 c

/-- Depth-first traversal of a children list, advancing the offset by each
child's allocated extent. Modelled from the spec. -/
def computeCh : LayoutDirection → LayoutChildren → List Nat → Rect → Nat → Nat →
    List LaidComponentId × Nat
  | _, .nil, _, _, _, c => ([], c)
  | d, .cons l _ rest, sizes, r, off, c =>
    let sz := sizes.headD 0
    let p1 := l.compute (subRect d r off sz) c
    let p2 := computeCh d rest sizes.tail r (off + sz) p1.2
    (p1.1 ++ p2.1, p2.2)
end

mutual
/-- Leaf ids of a layout in depth-first order. -/
def Layout.leafIds : Layout → List ComponentId
  | .component i => [i]
  | .node _ ch => ch.leafIdsList

/-- Leaf ids of a children list in order. -/
def LayoutChildren.leafIdsList : LayoutChildren → List ComponentId
  | .nil => []
  | .cons l _ rest => l.leafIds ++ rest.leafIdsList
end

/-- Layout::add_left. Modelled from the spec: insert the id at the left of the
layout content with the given flex weight (prepending to a horizontal node,
otherwise wrapping the old content into a horizontal node). -/
def Layout.add_left (l : Layout) (id : ComponentId) (flex : Flex) : Layout :=
  match l with
  | .node .horizontal ch => .node .horizontal (.cons (.component id) flex ch)
  | other => .node .horizontal (.cons (.component id) flex
      (.cons other Flex.stretched .nil))

mutual
/-- Layout::remove_component_id. Modelled from the spec: delete the leaf with
the given id (idempotent when absent); `none` when the layout becomes empty. -/
def Layout.remove_component_id : Layout → ComponentId → Option Layout
  | .component i, id => if i = id then none else some (.component i)
  | .node d ch, id =>
    match ch.removeId id with
    | .nil => none
    | ch' => some (.node d ch')

/-- Remove a component id from each child, dropping children that become
empty. -/
def LayoutChildren.removeId : LayoutChildren → ComponentId → LayoutChildren
  | .nil, _ => .nil
  | .cons c f rest, id =>
    match c.remove_component_id id with
    | none => rest.removeId id
    | some c' => .cons c' f (rest.removeId id)
end

/-- wrap_layout_with_prompt from the source: the root is always a vertical
node of the content (the splash leaf when there is none) stretched above the
prompt leaf with fixed height PROMPT_HEIGHT. -/
def wrap_layout_with_prompt (layout : Option Layout) : Layout :=
  .node .vertical
    (.cons (layout.getD (.component SPLASH_ID)) .stretched
      (.cons (.component PROMPT_ID) (.fixed PROMPT_HEIGHT) .nil))

/-- unwrap_prompt_from_layout from the source: a vertical node yields its
first child (the content); a bare component or any other shape yields none.
The source indexes `children[0]`, which is only reached on the wrapped shape. -/
def unwrap_prompt_from_layout : Layout → Option Layout
  | .node .vertical (.cons first _ _) => some first
  | _ => none

/-- Key events, restricted to the shapes the orchestrator inspects: a control
chord, a plain character, or any other key (tagged by a code). -/
inductive Key where
  | ctrl (c : Char)
  | char (c : Char)
  | otherKey (code : Nat)
deriving DecidableEq, Repr

/-- Theme palettes named in the source's theme table. -/
inductive Theme where
  | gruvbox
  | solarized
deriving DecidableEq, Repr

/-- Kind of an I/O failure, as far as the source discriminates it. -/
inductive IoErrorKind where
  | permissionDenied
  | otherErr
deriving DecidableEq, Repr

/-- Error type from the crate's error module, restricted to the variants the
orchestrator constructs or matches on. -/
inductive Error where
  | ioErr (kind : IoErrorKind)
  | missingSyntectTheme (name : String)
  | paneErr (msg : String)
deriving DecidableEq, Repr

/-- Display rendering of an error, standing in for `format!("{}", error)`. -/
def errMsg : Error → String
  | .ioErr .permissionDenied => "permission denied"
  | .ioErr .otherErr => "input output error"
  | .missingSyntectTheme n => "missing syntect theme: " ++ n
  | .paneErr m => m

/-- Task payloads delivered on the job completion channel, tagged by kind. -/
inductive ComponentTask where
  | task (tag : Nat)
deriving DecidableEq, Repr

/-- Handle to the job pool, carried in the ambient context. -/
structure JobPool where
  pid : Nat
deriving DecidableEq, Repr

/-- Context from the source: the ambient data handed to a pane on draw,
key press and task completion. -/
structure Context where
  time : Nat
  focused : Bool
  frame : Rect
  frame_id : Nat
  theme : Theme
  jobPool : JobPool
deriving DecidableEq, Repr

/-- Prompt command polled after a prompt key press; only OpenFile exists. -/
inductive Command where
  | openFile (path : String)
deriving DecidableEq, Repr

/-- Prompt state the orchestrator reads and writes. Modelled from the spec:
the Prompt is out of scope; the orchestrator uses its activity flag, its
transient log line, and the command it polls. -/
structure Prompt where
  active : Bool
  logLine : Option String
  pollCmd : Option Command
deriving DecidableEq, Repr

/-- Prompt's own key handling. Modelled from the spec: the concrete prompt is
an external collaborator; its `key_press` is an abstract state transformer
that may fail (such a failure is fatal to the event loop). -/
structure PromptOps where
  onKey : Key → Prompt → Except Error Prompt

/-- A live pane. Modelled from the spec: concrete panes are out of scope and
interact with the orchestrator only through reported results, so a pane is
represented by the failures (if any) it reports on key press and on task
completion. -/
structure Comp where
  keyPressRes : Key → Context → Option Error
  taskDoneRes : ComponentTask → Option Error

/-- Status of a path in the modelled file system. -/
inductive FileStat where
  | absent
  | denied
  | readable
deriving DecidableEq, Repr

/-- Calls the orchestrator makes to external collaborators, recorded as an
event trace: pane/prompt/splash draw and key press, pane task completion, and
the prompt's transient log line manipulation. -/
inductive ExtCall where
  | paneKey (id : ComponentId) (k : Key) (ctx : Context)
  | promptKey (k : Key) (ctx : Context)
  | paneDraw (id : ComponentId) (ctx : Context)
  | promptDraw (ctx : Context)
  | splashDraw (ctx : Context)
  | paneTaskDone (id : ComponentId) (task : ComponentTask)
  | logError (msg : String)
  | clearLog
deriving DecidableEq, Repr

/-- Theme table from `Editor::new`: three (palette, label, syntect key)
entries. -/
def themes : List (Theme × String × String) :=
  [(.gruvbox, "gruvbox-dark-soft", "gruvbox-dark-soft"),
   (.gruvbox, "gruvbox-mocha", "base16-mocha.dark"),
   (.solarized, "solarized-dark", "Solarized (dark)")]

/-- The Editor struct from the source. The components map is an association
list in insertion order; the prompt behaviour, the available syntect theme
keys, the file system and the job pool handle stand in for the external
collaborators the real struct reaches through I/O. -/
structure Editor where
  components : List (ComponentId × Comp)
  layout : Layout
  laid_components : List LaidComponentId
  next_component_id : ComponentId
  focus : Option ComponentId
  prompt : Prompt
  promptOps : PromptOps
  theme_index : Nat
  syntaxThemes : List String
  fs : String → FileStat
  jobPool : JobPool

/-- Ids present in the components registry, in registry order. -/
def registryIds (e : Editor) : List ComponentId :=
  e.components.map (fun p => p.1)

/-- Non-reserved leaf ids present in a layout (real panes have id ≥ 2). -/
def nonReservedLeafIds (l : Layout) : List ComponentId :=
  l.leafIds.filter (fun i => decide (2 ≤ i))

/-- HashMap::insert for the registry: all inserted keys are fresh, so the
entry is appended. -/
def insertComp (m : List (ComponentId × Comp)) (cid : ComponentId) (c : Comp) :
    List (ComponentId × Comp) :=
  m ++ [(cid, c)]

/-- HashMap::get for the registry: first entry with the given key. -/
def lookupComp (m : List (ComponentId × Comp)) (cid : ComponentId) : Option Comp :=
  (m.find? (fun p => p.1 == cid)).map (fun p => p.2)

/-- Editor::new from the source: empty registry, splash-plus-prompt layout,
id counter seeded one above the reserved ids, no focus, theme index 0. The
parameters inject the modelled external collaborators. -/
def Editor.new (prompt : Prompt) (promptOps : PromptOps) (syntaxThemes : List String)
    (fs : String → FileStat) (jobPool : JobPool) : Editor :=
  { components := []
    layout := wrap_layout_with_prompt none
    laid_components := []
    next_component_id := max PROMPT_ID SPLASH_ID + 1
    focus := none
    prompt
    promptOps
    theme_index := 0
    syntaxThemes
    fs
    jobPool }

/-- Active theme palette (`&self.themes[self.theme_index].0`). -/
def currentTheme (e : Editor) : Theme :=
  ((themes.get? e.theme_index).map (fun th => th.1)).getD .gruvbox

/-- Prompt::clear_log, with its trace event. -/
def clearLogE (e : Editor) : List ExtCall × Editor :=
  ([.clearLog], { e with prompt := { e.prompt with logLine := none } })

/-- Prompt::log_error, with its trace event. -/
def logErr (e : Editor) (msg : String) : List ExtCall × Editor :=
  ([.logError msg], { e with prompt := { e.prompt with logLine := some msg } })

/-- Editor::add_component from the source: take the next id, bump the
counter, insert the pane into the registry, set focus if none exists, and
rebuild the layout by adding the new leaf at the left of the content and
removing the splash placeholder (the freshly added leaf keeps the content
nonempty, so the source's `.unwrap()` there cannot fail). -/
def Editor.add_component (e : Editor) (c : Comp) : Editor × ComponentId :=
  let component_id := e.next_component_id
  let e := { e with
    next_component_id := e.next_component_id + 1
    components := insertComp e.components component_id c
    focus := match e.focus with
      | some f => some f
      | none => some component_id }
  let newLayout := wrap_layout_with_prompt
    ((unwrap_prompt_from_layout e.layout).map (fun l =>
      ((l.add_left component_id .stretched).remove_component_id SPLASH_ID).getD
        (Layout.component component_id)))
  let e := { e with layout := newLayout }
  (e, component_id)

/-- Editor::lay_components from the source: clear and recompute the laid
component list from the layout with the frame counter starting at 1. -/
def Editor.lay_components (e : Editor) (frame : Rect) : Editor :=
  { e with laid_components := (e.layout.compute frame 1).1 }

/-- Iterator::position from the standard library, used by the source on the
laid component list. -/
def position (p : α → Bool) : List α → Option Nat
  | [] => none
  | x :: xs => if p x then some 0 else (position p xs).map (fun i => i + 1)

/-- Vec::swap_remove from the standard library: replace the element at the
index with the last element and pop it. -/
def swapRemove (xs : List LaidComponentId) (i : Nat) : List LaidComponentId :=
  match xs.getLast? with
  | none => xs
  | some last => (xs.set i last).dropLast

/-- Whether a laid component has a reserved id (`laid.id < 2`). -/
def reserved (l : LaidComponentId) : Bool :=
  decide (l.id < 2)

/-- The `while let Some(index) = position(id < 2) { swap_remove(index) }` loop
from Editor::cycle_focus, with the list length as explicit fuel (each
iteration removes one element, so the length always suffices). -/
def purgeLoop : Nat → List LaidComponentId → List LaidComponentId
  | 0, xs => xs
  | fuel + 1, xs =>
    match position reserved xs with
    | none => xs
    | some i => purgeLoop fuel (swapRemove xs i)

/-- Reserved-id purge of the laid component list, as performed by
Editor::cycle_focus. -/
def purgeReserved (xs : List LaidComponentId) : List LaidComponentId :=
  purgeLoop xs.length xs

/-- Ascending frame id order used by `sort_by_key(|laid| laid.frame_id)`. -/
def fidLe (a b : LaidComponentId) : Prop :=
  a.frame_id ≤ b.frame_id

instance : DecidableRel fidLe := fun a b => Nat.decLe a.frame_id b.frame_id

instance : IsTotal LaidComponentId fidLe :=
  ⟨fun a b => Nat.le_total a.frame_id b.frame_id⟩

instance : IsTrans LaidComponentId fidLe :=
  ⟨fun _ _ _ h h' => Nat.le_trans h h'⟩

/-- CycleFocus from the source. -/
inductive CycleFocus where
  | next
  | previous
deriving DecidableEq, Repr

/-- The visiting order Editor::cycle_focus builds: recompute the laid
components, purge reserved ids with repeated swap_remove, and sort the rest
ascending by frame id (`sort_by_key`, modelled by stable insertion sort). -/
def Editor.focusOrder (e : Editor) (frame : Rect) : List LaidComponentId :=
  List.insertionSort fidLe (purgeReserved (e.layout.compute frame 1).1)

instance : Inhabited LaidComponentId := ⟨⟨0, ⟨0, 0, 0, 0⟩, 0⟩⟩

/-- Editor::cycle_focus from the source: on an empty filtered list drop the
focus; otherwise find the current focus's position (default 0), step it by
+1 (Next) or len−1 (Previous) modulo the length, and focus the id there.
The source indexes the list directly; the index is reduced modulo a nonzero
length and hence in range, so the total default-valued lookup is exact. -/
def Editor.cycle_focus (e : Editor) (frame : Rect) (direction : CycleFocus) : Editor :=
  let laid := e.focusOrder frame
  if laid.length = 0 then
    { e with laid_components := laid, focus := none }
  else
    let index := match e.focus with
      | some f => (position (fun l => l.id == f) laid).getD 0
      | none => 0
    let next_index := (match direction with
      | .next => index + 1
      | .previous => laid.length + index - 1) % laid.length
    { e with laid_components := laid
             focus := some (laid.getD next_index default).id }

/-- Buffer::from_file. Modelled from the spec: opening a nonexistent path
still yields a buffer (a new-file state); a permission-denied path fails with
the corresponding I/O error; a readable path yields a buffer. The buffer pane
itself is an external collaborator reporting no failures. -/
def bufferFromFile (st : FileStat) : Except Error Comp :=
  match st with
  | .denied => .error (.ioErr .permissionDenied)
  | _ => .ok { keyPressRes := fun _ _ => none, taskDoneRes := fun _ => none }

/-- Editor::open_file from the source: log "[New file]" when the path does
not exist, resolve the active syntect theme (a missing theme is a distinct
error), then open the buffer: on success add it as a pane and focus it; a
permission-denied read is logged and swallowed; any other failure
propagates. -/
def Editor.open_file (e : Editor) (path : String) : List ExtCall × Except Error Editor :=
  let p1 := if e.fs path == FileStat.absent then logErr e "[New file]" else ([], e)
  let tr1 := p1.1
  let e := p1.2
  let key := ((themes.get? e.theme_index).map (fun th => th.2.2)).getD ""
  if e.syntaxThemes.contains key then
    match bufferFromFile (e.fs path) with
    | .ok buffer =>
      let p2 := e.add_component buffer
      (tr1, .ok { p2.1 with focus := some p2.2 })
    | .error (.ioErr .permissionDenied) =>
      let p2 := logErr e ("Permission denied while opening " ++ path)
      (tr1 ++ p2.1, .ok p2.2)
    | .error err => (tr1, .error err)
  else
    (tr1, .error (.missingSyntectTheme key))

/-- The `laid_components.iter().for_each` body of Editor::key_press: each laid
entry whose id equals the focused id receives the key with the ambient
context; a reported failure is logged to the prompt's transient line. -/
def dispatchToFocused (comps : List (ComponentId × Comp)) (fz : ComponentId)
    (k : Key) (t : Nat) (thm : Theme) (jp : JobPool) :
    List LaidComponentId → Prompt → List ExtCall × Prompt
  | [], p => ([], p)
  | l :: rest, p =>
    if l.id = fz then
      let ctx : Context := ⟨t, true, l.frame, l.frame_id, thm, jp⟩
      match lookupComp comps l.id with
      | some c =>
        match c.keyPressRes k ctx with
        | some err =>
          let pr := dispatchToFocused comps fz k t thm jp rest
            { p with logLine := some (errMsg err) }
          (ExtCall.paneKey l.id k ctx :: ExtCall.logError (errMsg err) :: pr.1, pr.2)
        | none =>
          let pr := dispatchToFocused comps fz k t thm jp rest p
          (ExtCall.paneKey l.id k ctx :: pr.1, pr.2)
      | none => dispatchToFocused comps fz k t thm jp rest p
    else
      dispatchToFocused comps fz k t thm jp rest p

/-- The focused-pane stage of Editor::key_press: only runs when the prompt is
inactive and some pane holds focus; it recomputes the laid components and
dispatches the key to the focused pane. -/
def Editor.paneStage (e : Editor) (t : Nat) (k : Key) (frame : Rect) :
    List ExtCall × Editor :=
  match e.prompt.active, e.focus with
  | false, some fz =>
    let e := e.lay_components frame
    let pr := dispatchToFocused e.components fz k t (currentTheme e) e.jobPool
      e.laid_components e.prompt
    (pr.1, { e with prompt := pr.2 })
  | _, _ => ([], e)

/-- The prompt stage of Editor::key_press: the prompt always receives the key
(context with the full frame, frame id 0, focused false); its failure
propagates; afterwards a polled OpenFile command is executed. -/
def Editor.promptStage (e : Editor) (t : Nat) (k : Key) (frame : Rect) :
    List ExtCall × Except Error Editor :=
  let ctxP : Context := ⟨t, false, frame, 0, currentTheme e, e.jobPool⟩
  match e.promptOps.onKey k e.prompt with
  | .error err => ([ExtCall.promptKey k ctxP], .error err)
  | .ok p' =>
    let cmd := p'.pollCmd
    let e := { e with prompt := { p' with pollCmd := none } }
    match cmd with
    | some (Command.openFile path) =>
      let pr := e.open_file path
      (ExtCall.promptKey k ctxP :: pr.1, pr.2)
    | none => ([ExtCall.promptKey k ctxP], .ok e)

/-- The layout rebuild performed by the Ctrl-q branch of Editor::key_press:
unwrap the content, delete the focused leaf, and wrap again (reverting to the
splash placeholder when nothing remains). -/
def removeFromLayout (l : Layout) (focusId : ComponentId) : Layout :=
  wrap_layout_with_prompt
    ((unwrap_prompt_from_layout l).bind (fun c => c.remove_component_id focusId))

/-- Whether a key is one of the global shortcuts handled before any dispatch
inside Editor::key_press (Ctrl-o, Ctrl-q, Ctrl-t; Ctrl-c is intercepted one
level up, in the event loop). -/
def isGlobalShortcut (k : Key) : Bool :=
  k == Key.ctrl 'o' || k == Key.ctrl 'q' || k == Key.ctrl 't'

/-- Editor::key_press from the source: clear the prompt log; Ctrl-o cycles
focus, Ctrl-q removes the focused pane from the layout and cycles focus
backwards, Ctrl-t advances the theme — each returning immediately; any other
key goes through the focused-pane stage and then the prompt stage. -/
def Editor.key_press (e : Editor) (t : Nat) (k : Key) (frame : Rect) :
    List ExtCall × Except Error Editor :=
  let p0 := clearLogE e
  let tr0 := p0.1
  let e := p0.2
  if k == Key.ctrl 'o' then
    (tr0, .ok (e.cycle_focus frame .next))
  else if k == Key.ctrl 'q' then
    (tr0, .ok (match e.focus with
      | some focus =>
        ({ e with layout := removeFromLayout e.layout focus }).cycle_focus
          frame .previous
      | none => e))
  else if k == Key.ctrl 't' then
    let e := { e with theme_index := (e.theme_index + 1) % themes.length }
    let name := ((themes.get? e.theme_index).map (fun th => th.2.1)).getD ""
    let p1 := logErr e ("Theme changed to " ++ name)
    (tr0 ++ p1.1, .ok p1.2)
  else
    let pP := e.paneStage t k frame
    let pQ := pP.2.promptStage t k frame
    (tr0 ++ (pP.1 ++ pQ.1), pQ.2)

/-- Successor editor of a key press, the unchanged editor on failure. -/
def Editor.keyOk (e : Editor) (t : Nat) (k : Key) (frame : Rect) : Editor :=
  match (e.key_press t k frame).2 with
  | .ok e' => e'
  | .error _ => e

/-- How the event loop leaves its key-reading burst other than by exhausting
the input: an explicit quit or a fatal error. -/
inductive LoopExit where
  | quit
  | fatal (err : Error)

/-- The input-drain step of Editor::ui_loop: keys are handled in order;
Ctrl-c returns from the loop immediately; a key press failure propagates and
ends the loop (timing is outside the model). -/
def Editor.keyBurst (e : Editor) (t : Nat) (ks : List Key) (frame : Rect) :
    List ExtCall × (Editor ⊕ LoopExit) :=
  match ks with
  | [] => ([], Sum.inl e)
  | k :: rest =>
    if k == Key.ctrl 'c' then ([], Sum.inr .quit)
    else
      let pr := e.key_press t k frame
      match pr.2 with
      | .ok e' =>
        let p2 := e'.keyBurst t rest frame
        (pr.1 ++ p2.1, p2.2)
      | .error err => (pr.1, Sum.inr (.fatal err))

/-- The `try_for_each` broadcast of Editor::notify_task_done: every pane in
registry order receives the completed payload until one reports a failure. -/
def broadcastTask : List (ComponentId × Comp) → ComponentTask →
    List ExtCall × Option Error
  | [], _ => ([], none)
  | (cid, c) :: rest, task =>
    match c.taskDoneRes task with
    | some err => ([.paneTaskDone cid task], some err)
    | none =>
      let pr := broadcastTask rest task
      (.paneTaskDone cid task :: pr.1, pr.2)

/-- Editor::notify_task_done from the source: deliver a completed payload to
every live pane in registry order; the first reported failure aborts the
broadcast and is returned. -/
def Editor.notify_task_done (e : Editor) (task : ComponentTask) :
    List ExtCall × Except Error Editor :=
  let pr := broadcastTask e.components task
  match pr.2 with
  | some err => (pr.1, .error err)
  | none => (pr.1, .ok e)

/-- A drained completion: a successful payload or a failed job. -/
inductive JobPayload where
  | okPayload (task : ComponentTask)
  | errPayload (msg : String)

/-- The completion-drain loop of Editor::ui_loop: each successful payload is
fanned out through notify_task_done, whose failure propagates out of the
loop; a failed job is logged to the prompt. -/
def Editor.drainCompletions (e : Editor) : List JobPayload →
    List ExtCall × Except Error Editor
  | [] => ([], .ok e)
  | .okPayload task :: rest =>
    let pr := e.notify_task_done task
    match pr.2 with
    | .error err => (pr.1, .error err)
    | .ok e' =>
      let p2 := e'.drainCompletions rest
      (pr.1 ++ p2.1, p2.2)
  | .errPayload msg :: rest =>
    let p1 := logErr e msg
    let p2 := p1.2.drainCompletions rest
    (p1.1 ++ p2.1, p2.2)

/-- Editor::draw from the source: recompute the laid components and draw each
one — the prompt and the splash specially with an unfocused context, every
other pane with the focused flag set exactly when it holds focus and the
prompt is inactive. -/
def Editor.draw (e : Editor) (frame : Rect) (t : Nat) : List ExtCall × Editor :=
  let laid := (e.layout.compute frame 1).1
  let calls := laid.map (fun l =>
    let ctx : Context := ⟨t, false, l.frame, l.frame_id, currentTheme e, e.jobPool⟩
    if l.id == PROMPT_ID then ExtCall.promptDraw ctx
    else if l.id == SPLASH_ID then ExtCall.splashDraw ctx
    else ExtCall.paneDraw l.id { ctx with focused :=
      ((e.focus.map (fun fid => fid == l.id && !e.prompt.active)).getD false) })
  (calls, { e with laid_components := laid })

/-- A sequence of add_component calls, returning the allocated ids in
order. -/
def addMany (e : Editor) (cs : List Comp) : Editor × List ComponentId :=
  match cs with
  | [] => (e, [])
  | c :: rest =>
    let p1 := e.add_component c
    let p2 := addMany p1.1 rest
    (p2.1, p1.2 :: p2.2)

theorem position_eq_none {α : Type _} {p : α → Bool} {xs : List α}
    (h : position p xs = none) : ∀ x ∈ xs, p x = false := by
  induction xs with
  | nil => intro x hx; cases hx
  | cons y ys ih =>
    intro x hx
    by_cases hy : p y = true
    · simp [position, hy] at h
    · rcases List.mem_cons.mp hx with rfl | hmem
      · simpa using hy
      · have h2 : position p ys = none := by
          simp only [position, Bool.not_eq_true] at h
          simp [hy] at h
          exact h
        exact ih h2 x hmem

theorem position_lt {α : Type _} {p : α → Bool} {xs : List α} {i : Nat}
    (h : position p xs = some i) : i < xs.length := by
  induction xs generalizing i with
  | nil => simp [position] at h
  | cons y ys ih =>
    by_cases hy : p y = true
    · simp [position, hy] at h
      simp [← h]
    · simp [position, hy] at h
      obtain ⟨j, hj, rfl⟩ := h
      have := ih hj
      simp
      omega

theorem position_get {α : Type _} {p : α → Bool} {xs : List α} {i : Nat}
    (h : position p xs = some i) (hl : i < xs.length) :
    p (xs.get ⟨i, hl⟩) = true := by
  induction xs generalizing i with
  | nil => simp [position] at h
  | cons y ys ih =>
    by_cases hy : p y = true
    · simp [position, hy] at h
      subst h
      simpa using hy
    · simp [position, hy] at h
      obtain ⟨j, hj, rfl⟩ := h
      exact ih hj (by simpa using hl)

theorem position_isSome {α : Type _} {p : α → Bool} {xs : List α} {x : α}
    (hx : x ∈ xs) (hp : p x = true) : ∃ i, position p xs = some i := by
  cases h : position p xs with
  | none => exact absurd (position_eq_none h x hx) (by simp [hp])
  | some i => exact ⟨i, rfl⟩

theorem position_beq_get {xs : List LaidComponentId} {j : Nat} (hj : j < xs.length)
    (hnd : (xs.map (fun l => l.id)).Nodup) :
    position (fun l => l.id == (xs.get ⟨j, hj⟩).id) xs = some j := by
  induction xs generalizing j with
  | nil => cases hj
  | cons y ys ih =>
    have hnd2 : (ys.map (fun l => l.id)).Nodup ∧ y.id ∉ ys.map (fun l => l.id) := by
      have := hnd
      simp only [List.map_cons, List.nodup_cons] at this
      exact ⟨this.2, this.1⟩
    cases j with
    | zero => simp [position]
    | succ j' =>
      have hj' : j' < ys.length := by simpa using hj
      have hget : ((y :: ys).get ⟨j' + 1, hj⟩) = ys.get ⟨j', hj'⟩ := rfl
      have hmem : (ys.get ⟨j', hj'⟩).id ∈ ys.map (fun l => l.id) :=
        List.mem_map.mpr ⟨_, ys.get_mem _ _, rfl⟩
      have hy : (y.id == ((y :: ys).get ⟨j' + 1, hj⟩).id) = false := by
        rw [hget]
        exact beq_eq_false_iff_ne.mpr (fun hEq => hnd2.2 (hEq ▸ hmem))
      rw [position, hy]
      simp only [Bool.false_eq_true, if_false]
      rw [hget, ih hj' hnd2.1]
      rfl

theorem swapRemove_length {xs : List LaidComponentId} (h : xs ≠ []) (i : Nat) :
    (swapRemove xs i).length = xs.length - 1 := by
  unfold swapRemove
  rw [List.getLast?_eq_getLast xs h]
  simp

theorem swapRemove_perm : ∀ (xs : List LaidComponentId) (i : Nat), i < xs.length →
    (swapRemove xs i).Perm (xs.eraseIdx i)
  | [], i, h => absurd h (by simp)
  | [x], 0, _ => by simp [swapRemove]
  | [x], i + 1, h => absurd h (by simp)
  | x :: y :: ys, 0, _ => by
    have hne : (y :: ys : List LaidComponentId) ≠ [] := by simp
    unfold swapRemove
    rw [List.getLast?_cons_cons, List.getLast?_eq_getLast _ hne]
    simp only [List.set_cons_zero, List.eraseIdx_cons_zero, List.dropLast_cons₂]
    have hform := List.dropLast_append_getLast hne
    have hp := List.perm_append_singleton ((y :: ys).getLast hne) ((y :: ys).dropLast)
    rw [hform] at hp
    exact hp.symm
  | x :: y :: ys, i + 1, h => by
    have hne : (y :: ys : List LaidComponentId) ≠ [] := by simp
    have hi : i < (y :: ys).length := by simpa using h
    have hrec := swapRemove_perm (y :: ys) i hi
    have hstep : swapRemove (x :: y :: ys) (i + 1) = x :: swapRemove (y :: ys) i := by
      unfold swapRemove
      rw [List.getLast?_cons_cons, List.getLast?_eq_getLast _ hne]
      simp only [List.set_cons_succ]
      have hsetne : ((y :: ys).set i ((y :: ys).getLast hne)) ≠ [] := by
        intro hc
        have := congrArg List.length hc
        simp at this
      cases hset : (y :: ys).set i ((y :: ys).getLast hne) with
      | nil => exact absurd hset hsetne
      | cons a as => rw [List.dropLast_cons₂]
    rw [hstep, List.eraseIdx_cons_succ]
    exact hrec.cons x

theorem filter_eraseIdx_of_neg {α : Type _} {p : α → Bool} :
    ∀ (xs : List α) (i : Nat) (h : i < xs.length),
    p (xs.get ⟨i, h⟩) = false → (xs.eraseIdx i).filter p = xs.filter p
  | [], i, h, _ => absurd h (by simp)
  | x :: xs, 0, _, hp => by
    simp only [List.eraseIdx_cons_zero, List.filter_cons]
    simp only [List.get] at hp
    simp [hp]
  | x :: xs, i + 1, h, hp => by
    have h' : i < xs.length := by simpa using h
    simp only [List.eraseIdx_cons_succ, List.filter_cons]
    rw [filter_eraseIdx_of_neg xs i h' hp]

theorem purgeLoop_perm : ∀ (fuel : Nat) (xs : List LaidComponentId),
    xs.length ≤ fuel →
    (purgeLoop fuel xs).Perm (xs.filter (fun l => !reserved l)) := by
  intro fuel
  induction fuel with
  | zero =>
    intro xs hx
    have : xs = [] := List.length_eq_zero.mp (Nat.le_zero.mp hx)
    subst this
    simp [purgeLoop]
  | succ n ih =>
    intro xs hx
    cases hpos : position reserved xs with
    | none =>
      have hall : ∀ x ∈ xs, reserved x = false := position_eq_none hpos
      have : xs.filter (fun l => !reserved l) = xs :=
        List.filter_eq_self.mpr (fun a ha => by simp [hall a ha])
      rw [purgeLoop, hpos, this]
    | some i =>
      have hi : i < xs.length := position_lt hpos
      have hne : xs ≠ [] := by
        intro hc; subst hc; simp at hi
      have hlen : (swapRemove xs i).length = xs.length - 1 := swapRemove_length hne i
      have hfuel : (swapRemove xs i).length ≤ n := by omega
      have h1 := ih (swapRemove xs i) hfuel
      have h2 : ((swapRemove xs i).filter (fun l => !reserved l)).Perm
          ((xs.eraseIdx i).filter (fun l => !reserved l)) :=
        (swapRemove_perm xs i hi).filter _
      have h3 : (xs.eraseIdx i).filter (fun l => !reserved l) =
          xs.filter (fun l => !reserved l) :=
        filter_eraseIdx_of_neg xs i hi (by simpa using position_get hpos hi)
      rw [purgeLoop, hpos]
      exact (h1.trans h2).trans (h3 ▸ List.Perm.refl _)

theorem purgeReserved_perm (xs : List LaidComponentId) :
    (purgeReserved xs).Perm (xs.filter (fun l => !reserved l)) :=
  purgeLoop_perm xs.length xs (Nat.le_refl _)

/-- Strict frame id order: the traversal order is strictly increasing. -/
def fidLt (a b : LaidComponentId) : Prop :=
  a.frame_id < b.frame_id

mutual
theorem compute_fid_spec : ∀ (l : Layout) (r : Rect) (c : Nat),
    c ≤ (l.compute r c).2 ∧
    (∀ x ∈ (l.compute r c).1, c ≤ x.frame_id ∧ x.frame_id < (l.compute r c).2) ∧
    (l.compute r c).1.Pairwise fidLt
  | .component i, r, c => by
    simp [Layout.compute, fidLt]
  | .node d ch, r, c => by
    have h := computeCh_fid_spec d ch (childSizes (axisLen d r) ch.flexes) r 0 c
    simpa [Layout.compute] using h

theorem computeCh_fid_spec : ∀ (d : LayoutDirection) (ch : LayoutChildren)
    (sizes : List Nat) (r : Rect) (off c : Nat),
    c ≤ (computeCh d ch sizes r off c).2 ∧
    (∀ x ∈ (computeCh d ch sizes r off c).1,
      c ≤ x.frame_id ∧ x.frame_id < (computeCh d ch sizes r off c).2) ∧
    (computeCh d ch sizes r off c).1.Pairwise fidLt
  | _, .nil, _, _, _, c => by simp [computeCh]
  | d, .cons l f rest, sizes, r, off, c => by
    have h1 := compute_fid_spec l (subRect d r off (sizes.headD 0)) c
    have h2 := computeCh_fid_spec d rest sizes.tail r (off + sizes.headD 0)
      (l.compute (subRect d r off (sizes.headD 0)) c).2
    simp only [computeCh]
    refine ⟨Nat.le_trans h1.1 h2.1, ?_, ?_⟩
    · intro x hx
      rcases List.mem_append.mp hx with hx1 | hx2
      · obtain ⟨ha, hb⟩ := h1.2.1 x hx1
        exact ⟨ha, Nat.lt_of_lt_of_le hb h2.1⟩
      · obtain ⟨ha, hb⟩ := h2.2.1 x hx2
        exact ⟨Nat.le_trans h1.1 ha, hb⟩
    · rw [List.pairwise_append]
      refine ⟨h1.2.2, h2.2.2, ?_⟩
      intro a ha b hb
      have ha1 := (h1.2.1 a ha).2
      have hb1 := (h2.2.1 b hb).1
      exact Nat.lt_of_lt_of_le ha1 hb1
end

theorem pairwise_lt_of_le_nodup {l : List LaidComponentId}
    (hle : List.Pairwise fidLe l)
    (hnd : (l.map (fun x => x.frame_id)).Nodup) : List.Pairwise fidLt l := by
  have hne : List.Pairwise (fun a b : LaidComponentId => a.frame_id ≠ b.frame_id) l :=
    List.pairwise_map.mp hnd
  exact (hle.and hne).imp (fun h => Nat.lt_of_le_of_ne h.1 h.2)

theorem eq_of_perm_pairwise_lt {l₁ l₂ : List LaidComponentId}
    (hp : l₁.Perm l₂) (h₁ : List.Pairwise fidLt l₁) (h₂ : List.Pairwise fidLt l₂) :
    l₁ = l₂ := by
  induction l₁ generalizing l₂ with
  | nil => exact hp.nil_eq
  | cons a t₁ ih =>
    cases l₂ with
    | nil => exact absurd hp.symm.nil_eq (by simp)
    | cons b t₂ =>
      obtain ⟨hab, h₁tail⟩ := List.pairwise_cons.mp h₁
      obtain ⟨hbb, h₂tail⟩ := List.pairwise_cons.mp h₂
      by_cases heq : a = b
      · subst heq
        rw [ih hp.cons_inv h₁tail h₂tail]
      · have ha : a ∈ t₂ := by
          have hm := hp.mem_iff.mp (List.mem_cons_self a t₁)
          rcases List.mem_cons.mp hm with h | h
          · exact absurd h heq
          · exact h
        have hb : b ∈ t₁ := by
          have hm := hp.symm.mem_iff.mp (List.mem_cons_self b t₂)
          rcases List.mem_cons.mp hm with h | h
          · exact absurd h.symm heq
          · exact h
        have h1 := hab b hb
        have h2 := hbb a ha
        simp only [fidLt] at h1 h2
        omega

theorem focusOrder_eq_filter_sort (e : Editor) (frame : Rect) :
    e.focusOrder frame = List.insertionSort fidLe
      (((e.layout.compute frame 1).1).filter (fun l => !reserved l)) := by
  have hperm : (purgeReserved (e.layout.compute frame 1).1).Perm
      (((e.layout.compute frame 1).1).filter (fun l => !reserved l)) :=
    purgeReserved_perm _
  have hpw : List.Pairwise fidLt (e.layout.compute frame 1).1 :=
    (compute_fid_spec e.layout frame 1).2.2
  have hfpw : List.Pairwise fidLt
      (((e.layout.compute frame 1).1).filter (fun l => !reserved l)) :=
    List.Pairwise.sublist (List.filter_sublist _) hpw
  have hnd : ((((e.layout.compute frame 1).1).filter (fun l => !reserved l)).map
      (fun x => x.frame_id)).Nodup :=
    List.pairwise_map.mpr (hfpw.imp (fun h => Nat.ne_of_lt h))
  have hA : (List.insertionSort fidLe
      (purgeReserved (e.layout.compute frame 1).1)).Perm
      (((e.layout.compute frame 1).1).filter (fun l => !reserved l)) :=
    (List.perm_insertionSort fidLe _).trans hperm
  have hB : (List.insertionSort fidLe
      (((e.layout.compute frame 1).1).filter (fun l => !reserved l))).Perm
      (((e.layout.compute frame 1).1).filter (fun l => !reserved l)) :=
    List.perm_insertionSort fidLe _
  have hsA : List.Pairwise fidLe (List.insertionSort fidLe
      (purgeReserved (e.layout.compute frame 1).1)) :=
    List.sorted_insertionSort fidLe _
  have hsB : List.Pairwise fidLe (List.insertionSort fidLe
      (((e.layout.compute frame 1).1).filter (fun l => !reserved l))) :=
    List.sorted_insertionSort fidLe _
  have hndA := ((hA.map (fun x => x.frame_id)).nodup_iff).mpr hnd
  have hndB := ((hB.map (fun x => x.frame_id)).nodup_iff).mpr hnd
  exact eq_of_perm_pairwise_lt (hA.trans hB.symm)
    (pairwise_lt_of_le_nodup hsA hndA) (pairwise_lt_of_le_nodup hsB hndB)

/-- Modelled from the spec's words (§4.3), for comparison with the translated
cycle_focus: recompute the laid components, discard reserved ids, sort
ascending by frame id, locate the current focus's position (default 0 when
focus is empty or stale), move by +1 or −1 modulo the filtered count, and
return the id there; an empty filtered list yields no focus. -/
def Editor.cycleFocusSpecFocus (e : Editor) (frame : Rect) (direction : CycleFocus) :
    Option ComponentId :=
  let laid := List.insertionSort fidLe
    (((e.layout.compute frame 1).1).filter (fun l => !reserved l))
  if laid.length = 0 then none
  else
    let index := match e.focus with
      | some f => (position (fun l => l.id == f) laid).getD 0
      | none => 0
    let next := (match direction with
      | .next => index + 1
      | .previous => laid.length + index - 1) % laid.length
    some ((laid.getD next default).id)

theorem cycle_focus_focus_eq (e : Editor) (frame : Rect) (d : CycleFocus) :
    (e.cycle_focus frame d).focus = e.cycleFocusSpecFocus frame d := by
  have hlist := focusOrder_eq_filter_sort e frame
  unfold Editor.cycle_focus Editor.cycleFocusSpecFocus
  rw [hlist]
  by_cases hz : (List.insertionSort fidLe
      (((e.layout.compute frame 1).1).filter (fun l => !reserved l))).length = 0
  · rw [if_pos hz, if_pos hz]
  · rw [if_neg hz, if_neg hz]

theorem cycle_focus_layout (e : Editor) (frame : Rect) (d : CycleFocus) :
    (e.cycle_focus frame d).layout = e.layout := by
  simp only [Editor.cycle_focus]
  split <;> rfl

theorem cycle_focus_focusOrder (e : Editor) (frame frame2 : Rect) (d : CycleFocus) :
    (e.cycle_focus frame d).focusOrder frame2 = e.focusOrder frame2 := by
  unfold Editor.focusOrder
  rw [cycle_focus_layout]

theorem cycle_focus_get (e : Editor) (frame : Rect) (d : CycleFocus)
    (f : ComponentId) (i : Nat) (hf : e.focus = some f)
    (hpos : position (fun l => l.id == f) (e.focusOrder frame) = some i)
    (hne : (e.focusOrder frame).length ≠ 0) :
    (e.cycle_focus frame d).focus = some (((e.focusOrder frame).getD
      ((match d with
        | .next => i + 1
        | .previous => (e.focusOrder frame).length + i - 1) %
          (e.focusOrder frame).length) default).id) := by
  unfold Editor.cycle_focus
  rw [if_neg hne, hf]
  simp only [hpos, Option.getD_some]

theorem mod_roundtrip (n i : Nat) (hi : i < n) :
    (n + (i + 1) % n - 1) % n = i := by
  rcases Nat.lt_or_ge (i + 1) n with h | h
  · rw [Nat.mod_eq_of_lt h]
    have h2 : n + (i + 1) - 1 = n + i := by omega
    rw [h2, Nat.add_mod_left, Nat.mod_eq_of_lt hi]
  · have hn1 : i + 1 = n := by omega
    rw [hn1, Nat.mod_self]
    have h2 : n + 0 - 1 = n - 1 := by omega
    rw [h2, Nat.mod_eq_of_lt (by omega)]
    omega

/-- C2: for every layout state whose filtered (non-reserved) laid-component
list is non-empty and every focus that is a valid member of that list (pane
ids being unique as the data model requires), cycling focus Next and then
Previous with the layout unchanged restores the original focus, for any pane
count ≥ 1. -/
theorem C2_cycle_next_prev_roundtrip (e : Editor) (frame : Rect) (f : ComponentId)
    (hf : e.focus = some f)
    (hmem : f ∈ (e.focusOrder frame).map (fun l => l.id))
    (hnd : ((e.focusOrder frame).map (fun l => l.id)).Nodup) :
    ((e.cycle_focus frame CycleFocus.next).cycle_focus frame
      CycleFocus.previous).focus = some f := by
  obtain ⟨x, hx, hxid⟩ := List.mem_map.mp hmem
  have hne : (e.focusOrder frame).length ≠ 0 := by
    intro hz
    rw [List.length_eq_zero] at hz
    rw [hz] at hx
    cases hx
  have hn : 0 < (e.focusOrder frame).length := Nat.pos_of_ne_zero hne
  obtain ⟨i, hpos⟩ := position_isSome (p := fun l => l.id == f) hx (by simp [hxid])
  have hi : i < (e.focusOrder frame).length := position_lt hpos
  have h1 : (e.cycle_focus frame CycleFocus.next).focus =
      some (((e.focusOrder frame).getD ((i + 1) % (e.focusOrder frame).length)
        default).id) :=
    cycle_focus_get e frame CycleFocus.next f i hf hpos hne
  have hj1 : (i + 1) % (e.focusOrder frame).length < (e.focusOrder frame).length :=
    Nat.mod_lt _ hn
  have he1order : (e.cycle_focus frame CycleFocus.next).focusOrder frame =
      e.focusOrder frame := cycle_focus_focusOrder e frame frame CycleFocus.next
  have h1get : (e.cycle_focus frame CycleFocus.next).focus =
      some (((e.focusOrder frame).get ⟨(i + 1) % (e.focusOrder frame).length,
        hj1⟩).id) := by
    rw [h1, List.getD_eq_get _ default hj1]
  have hpos2 : position (fun l =>
        l.id == ((e.focusOrder frame).get ⟨(i + 1) % (e.focusOrder frame).length,
          hj1⟩).id)
      ((e.cycle_focus frame CycleFocus.next).focusOrder frame) =
      some ((i + 1) % (e.focusOrder frame).length) := by
    rw [he1order]
    exact position_beq_get hj1 hnd
  have hne2 : ((e.cycle_focus frame CycleFocus.next).focusOrder frame).length ≠ 0 := by
    rw [he1order]
    exact hne
  have h2 := cycle_focus_get (e.cycle_focus frame CycleFocus.next) frame
    CycleFocus.previous _ _ h1get hpos2 hne2
  have h2' : ((e.cycle_focus frame CycleFocus.next).cycle_focus frame
      CycleFocus.previous).focus =
      some (((e.focusOrder frame).getD
        (((e.focusOrder frame).length +
          (i + 1) % (e.focusOrder frame).length - 1) %
            (e.focusOrder frame).length) default).id) := by
    rw [h2, he1order]
  have harith : ((e.focusOrder frame).length +
      (i + 1) % (e.focusOrder frame).length - 1) % (e.focusOrder frame).length = i :=
    mod_roundtrip (e.focusOrder frame).length i hi
  rw [h2', harith, List.getD_eq_get _ default hi]
  have hidf := position_get hpos hi
  simp only [beq_iff_eq] at hidf
  rw [hidf]

/-- C3: Editor::cycle_focus computes exactly what the spec describes — filter
out reserved ids from the freshly laid components, sort ascending by
frame id, take the index of the current focus (default 0 when empty or
stale), move it by ±1 modulo the filtered count with wrap-around, and focus
the id at the resulting index; an empty filtered list clears the focus. -/
theorem C3_cycle_focus_matches_spec (e : Editor) (frame : Rect) (d : CycleFocus) :
    (e.cycle_focus frame d).focus = e.cycleFocusSpecFocus frame d :=
  cycle_focus_focus_eq e frame d

/-- A pane reporting no failures, for concrete instantiations. -/
def inertComp : Comp := ⟨fun _ _ => none, fun _ => none⟩

/-- A pane whose key press reports a fixed failure. -/
def keyFailComp : Comp := ⟨fun _ _ => some (.paneErr "pane key failure"), fun _ => none⟩

/-- A pane whose task completion reports a fixed failure. -/
def taskFailComp : Comp := ⟨fun _ _ => none, fun _ => some (.paneErr "pane task failure")⟩

/-- A prompt behaviour that accepts every key and polls no command. -/
def okPromptOps : PromptOps := ⟨fun _ p => .ok { p with pollCmd := none }⟩

/-- A prompt behaviour that rejects every key. -/
def failPromptOps : PromptOps := ⟨fun _ _ => .error (.paneErr "prompt key failure")⟩

/-- Base editor for concrete instantiations: inactive prompt with empty log,
the three syntect theme keys available, every path readable. -/
def testEditor : Editor :=
  Editor.new ⟨false, none, none⟩ okPromptOps
    ["gruvbox-dark-soft", "base16-mocha.dark", "Solarized (dark)"]
    (fun _ => .readable) ⟨0⟩

/-- Test frame covering an 80×24 terminal. -/
def testFrame : Rect := ⟨0, 0, 80, 24⟩

/-- Editor holding two panes (ids 2 and 3), focus on pane 2. -/
def testEditor2 : Editor :=
  ((testEditor.add_component inertComp).1.add_component inertComp).1

/-- Witness for C2 at a concrete two-pane editor. -/
theorem C2_cycle_next_prev_roundtrip_witness :
    testEditor2.focus = some 2 ∧
    2 ∈ (testEditor2.focusOrder testFrame).map (fun l => l.id) ∧
    ((testEditor2.focusOrder testFrame).map (fun l => l.id)).Nodup ∧
    ((testEditor2.cycle_focus testFrame CycleFocus.next).cycle_focus testFrame
      CycleFocus.previous).focus = some 2 :=
  ⟨by decide, by decide, by decide,
    C2_cycle_next_prev_roundtrip testEditor2 testFrame 2 (by decide) (by decide)
      (by decide)⟩

/-- C1: the claimed layout/registry id-set invariant fails on the code. After
adding one pane (id 2) to a fresh editor and pressing Ctrl-q, the pane's leaf
is gone from the layout content but its registry entry remains:
Editor::key_press deletes the focused id from the layout only and never
removes the component from the components map, so the two id sets diverge. -/
theorem C1_remove_keeps_registry_entry :
    registryIds (testEditor.add_component inertComp).1 = [2] ∧
    nonReservedLeafIds (testEditor.add_component inertComp).1.layout = [2] ∧
    ∃ e2, ((testEditor.add_component inertComp).1.key_press 0 (Key.ctrl 'q')
        testFrame).2 = Except.ok e2 ∧
      nonReservedLeafIds e2.layout = [] ∧ registryIds e2 = [2] ∧ e2.focus = none := by
  refine ⟨by decide, by decide, _, rfl, ?_, ?_, ?_⟩ <;> decide

theorem addMany_ids (e0 : Editor) (cs : List Comp) :
    (addMany e0 cs).2 = List.range' e0.next_component_id cs.length := by
  induction cs generalizing e0 with
  | nil => rfl
  | cons cHead rest ih =>
    simp only [addMany]
    rw [ih]
    rfl

theorem lookup_insert_fresh (m : List (ComponentId × Comp)) (cid : ComponentId)
    (c : Comp) (h : ∀ k ∈ m.map (fun p => p.1), k ≠ cid) :
    lookupComp (insertComp m cid c) cid = some c := by
  induction m with
  | nil => simp [lookupComp, insertComp]
  | cons x xs ih =>
    have hx : (x.1 == cid) = false := beq_eq_false_iff_ne.mpr (h x.1 (by simp))
    simp only [insertComp, lookupComp, List.cons_append, List.find?]
    rw [hx]
    exact ih (fun k hk => h k (by simp [hk]))

theorem add_left_shape (l : Layout) (cid : ComponentId) :
    ∃ rest, l.add_left cid .stretched =
      .node .horizontal (.cons (.component cid) .stretched rest) := by
  cases l with
  | component i => exact ⟨_, rfl⟩
  | node d ch =>
    cases d with
    | horizontal => exact ⟨_, rfl⟩
    | vertical => exact ⟨_, rfl⟩

theorem remove_splash_shape (rest : LayoutChildren) (cid : ComponentId)
    (h2 : 2 ≤ cid) :
    (Layout.node .horizontal
        (.cons (.component cid) .stretched rest)).remove_component_id SPLASH_ID =
      some (.node .horizontal
        (.cons (.component cid) .stretched (rest.removeId SPLASH_ID))) := by
  have hne : ¬(cid = SPLASH_ID) := by
    intro hc
    subst hc
    exact absurd h2 (by decide)
  have hcomp : (Layout.component cid).remove_component_id SPLASH_ID =
      some (Layout.component cid) := by
    rw [Layout.remove_component_id, if_neg hne]
  conv_lhs => rw [Layout.remove_component_id, LayoutChildren.removeId, hcomp]

/-- C7: add_component allocates ids from a monotonic counter seeded at 2 (the
fresh editor starts there and every sequence of additions yields the
consecutive ids from the counter — strictly increasing, never reused, all
≥ 2); the pane is stored in the registry under the new id, the id is inserted
at the left of the layout content with Stretched flex, and focus moves to the
new id exactly when no focus existed. -/
theorem C7_add_component_spec (e : Editor) (c : Comp) (content : Layout)
    (hnext : 2 ≤ e.next_component_id)
    (hkeys : ∀ k ∈ registryIds e, k < e.next_component_id)
    (hlay : unwrap_prompt_from_layout e.layout = some content) :
    (∀ (p : Prompt) (po : PromptOps) (st : List String)
      (fsys : String → FileStat) (jp : JobPool),
      (Editor.new p po st fsys jp).next_component_id = 2) ∧
    (∀ (e0 : Editor) (cs : List Comp),
      (addMany e0 cs).2 = List.range' e0.next_component_id cs.length) ∧
    (e.add_component c).2 = e.next_component_id ∧
    (e.add_component c).1.next_component_id = e.next_component_id + 1 ∧
    lookupComp (e.add_component c).1.components e.next_component_id = some c ∧
    (∃ ch, unwrap_prompt_from_layout (e.add_component c).1.layout =
      some (Layout.node .horizontal
        (.cons (.component e.next_component_id) .stretched ch))) ∧
    ((e.add_component c).1.focus = match e.focus with
      | none => some e.next_component_id
      | some f => some f) := by
  refine ⟨fun _ _ _ _ _ => rfl, addMany_ids, rfl, rfl, ?_, ?_, ?_⟩
  · exact lookup_insert_fresh e.components e.next_component_id c
      (fun k hk => Nat.ne_of_lt (hkeys k hk))
  · obtain ⟨rest, hshape⟩ := add_left_shape content e.next_component_id
    refine ⟨rest.removeId SPLASH_ID, ?_⟩
    have hmap : Option.map (fun l =>
        ((l.add_left e.next_component_id Flex.stretched).remove_component_id
          SPLASH_ID).getD (Layout.component e.next_component_id)) (some content) =
        some (((content.add_left e.next_component_id
          Flex.stretched).remove_component_id SPLASH_ID).getD
            (Layout.component e.next_component_id)) := rfl
    simp only [Editor.add_component, hlay, hmap]
    rw [hshape, remove_splash_shape rest e.next_component_id hnext]
    rfl
  · cases hfoc : e.focus with
    | none => simp [Editor.add_component, hfoc]
    | some f => simp [Editor.add_component, hfoc]

/-- Witness for C7 at the fresh base editor. -/
theorem C7_add_component_spec_witness :
    (2 ≤ testEditor.next_component_id) ∧
    (∀ k ∈ registryIds testEditor, k < testEditor.next_component_id) ∧
    unwrap_prompt_from_layout testEditor.layout = some (Layout.component 1) ∧
    ((∀ (p : Prompt) (po : PromptOps) (st : List String)
      (fsys : String → FileStat) (jp : JobPool),
      (Editor.new p po st fsys jp).next_component_id = 2) ∧
    (∀ (e0 : Editor) (cs : List Comp),
      (addMany e0 cs).2 = List.range' e0.next_component_id cs.length) ∧
    (testEditor.add_component inertComp).2 = testEditor.next_component_id ∧
    (testEditor.add_component inertComp).1.next_component_id =
      testEditor.next_component_id + 1 ∧
    lookupComp (testEditor.add_component inertComp).1.components
      testEditor.next_component_id = some inertComp ∧
    (∃ ch, unwrap_prompt_from_layout (testEditor.add_component inertComp).1.layout =
      some (Layout.node .horizontal
        (.cons (.component testEditor.next_component_id) .stretched ch))) ∧
    ((testEditor.add_component inertComp).1.focus = match testEditor.focus with
      | none => some testEditor.next_component_id
      | some f => some f)) :=
  ⟨by decide, by simp [registryIds, testEditor, Editor.new], rfl,
    C7_add_component_spec testEditor inertComp (Layout.component 1) (by decide)
      (by simp [registryIds, testEditor, Editor.new]) rfl⟩

theorem keyOk_ctrl_t (e2 : Editor) (t : Nat) (frame : Rect) :
    (e2.keyOk t (Key.ctrl 't') frame).theme_index =
      (e2.theme_index + 1) % themes.length := rfl

/-- C8: each Ctrl-t key press advances theme_index by one modulo the number
of themes (three), so pressing it exactly three times from any valid starting
index returns theme_index to its original value. -/
theorem C8_theme_cycle (e : Editor) (t : Nat) (frame : Rect)
    (h : e.theme_index < themes.length) :
    (∀ e2 : Editor, (e2.keyOk t (Key.ctrl 't') frame).theme_index =
      (e2.theme_index + 1) % themes.length) ∧
    (e.key_press t (Key.ctrl 't') frame).2 =
      Except.ok (e.keyOk t (Key.ctrl 't') frame) ∧
    themes.length = 3 ∧
    (((e.keyOk t (Key.ctrl 't') frame).keyOk t (Key.ctrl 't') frame).keyOk t
      (Key.ctrl 't') frame).theme_index = e.theme_index := by
  refine ⟨fun e2 => keyOk_ctrl_t e2 t frame, rfl, rfl, ?_⟩
  rw [keyOk_ctrl_t, keyOk_ctrl_t, keyOk_ctrl_t]
  have hlen : themes.length = 3 := rfl
  rw [hlen] at h ⊢
  omega

/-- Witness for C8 at the fresh base editor (theme index 0). -/
theorem C8_theme_cycle_witness :
    testEditor.theme_index < themes.length ∧
    (((testEditor.keyOk 0 (Key.ctrl 't') testFrame).keyOk 0 (Key.ctrl 't')
      testFrame).keyOk 0 (Key.ctrl 't') testFrame).theme_index =
      testEditor.theme_index :=
  ⟨by decide, (C8_theme_cycle testEditor 0 testFrame (by decide)).2.2.2⟩

/-- C9: in every draw pass the focused flag handed to a pane's draw is true
for a component id exactly when focus equals that id and the prompt is not
active; the prompt and the splash are always drawn with focused = false. -/
theorem C9_draw_focused_flag (e : Editor) (frame : Rect) (t : Nat)
    (id : ComponentId) (ctx : Context)
    (h : ExtCall.paneDraw id ctx ∈ (e.draw frame t).1) :
    (ctx.focused = true ↔ (e.focus = some id ∧ e.prompt.active = false)) ∧
    (∀ ctx2, ExtCall.promptDraw ctx2 ∈ (e.draw frame t).1 →
      ctx2.focused = false) ∧
    (∀ ctx2, ExtCall.splashDraw ctx2 ∈ (e.draw frame t).1 →
      ctx2.focused = false) := by
  refine ⟨?_, ?_, ?_⟩
  · simp only [Editor.draw, List.mem_map] at h
    obtain ⟨l, _, heq⟩ := h
    by_cases hp : (l.id == PROMPT_ID) = true
    · rw [if_pos hp] at heq
      cases heq
    · rw [if_neg hp] at heq
      by_cases hs : (l.id == SPLASH_ID) = true
      · rw [if_pos hs] at heq
        cases heq
      · rw [if_neg hs] at heq
        cases heq
        cases hfoc : e.focus with
        | none => simp [hfoc]
        | some fid => simp [hfoc]
  · intro ctx2 h2
    simp only [Editor.draw, List.mem_map] at h2
    obtain ⟨l, _, heq⟩ := h2
    by_cases hp : (l.id == PROMPT_ID) = true
    · rw [if_pos hp] at heq
      cases heq
      rfl
    · rw [if_neg hp] at heq
      by_cases hs : (l.id == SPLASH_ID) = true
      · rw [if_pos hs] at heq
        cases heq
      · rw [if_neg hs] at heq
        cases heq
  · intro ctx2 h2
    simp only [Editor.draw, List.mem_map] at h2
    obtain ⟨l, _, heq⟩ := h2
    by_cases hp : (l.id == PROMPT_ID) = true
    · rw [if_pos hp] at heq
      cases heq
    · rw [if_neg hp] at heq
      by_cases hs : (l.id == SPLASH_ID) = true
      · rw [if_pos hs] at heq
        cases heq
        rfl
      · rw [if_neg hs] at heq
        cases heq

/-- Context handed to pane 2 in a draw of the one-pane editor. -/
def testCtx9 : Context := ⟨0, true, ⟨0, 0, 80, 23⟩, 1, Theme.gruvbox, ⟨0⟩⟩

/-- Witness for C9 at the one-pane editor, whose pane 2 holds focus. -/
theorem C9_draw_focused_flag_witness :
    ExtCall.paneDraw 2 testCtx9 ∈
      ((testEditor.add_component inertComp).1.draw testFrame 0).1 ∧
    ((testCtx9.focused = true) ↔
      ((testEditor.add_component inertComp).1.focus = some 2 ∧
        (testEditor.add_component inertComp).1.prompt.active = false)) ∧
    (∀ ctx2, ExtCall.promptDraw ctx2 ∈
      ((testEditor.add_component inertComp).1.draw testFrame 0).1 →
      ctx2.focused = false) ∧
    (∀ ctx2, ExtCall.splashDraw ctx2 ∈
      ((testEditor.add_component inertComp).1.draw testFrame 0).1 →
      ctx2.focused = false) := by
  have H := C9_draw_focused_flag (testEditor.add_component inertComp).1 testFrame 0
    2 testCtx9 (by decide)
  exact ⟨by decide, H.1, H.2.1, H.2.2⟩

theorem broadcast_all_ok (m : List (ComponentId × Comp)) (task : ComponentTask)
    (h : ∀ pr ∈ m, pr.2.taskDoneRes task = none) :
    broadcastTask m task =
      (m.map (fun pr => ExtCall.paneTaskDone pr.1 task), none) := by
  induction m with
  | nil => rfl
  | cons x xs ih =>
    have hx : x.2.taskDoneRes task = none := h x (by simp)
    have hxs := ih (fun pr hpr => h pr (by simp [hpr]))
    cases x with
    | mk xc xcomp =>
      have hx2 : xcomp.taskDoneRes task = none := hx
      simp only [broadcastTask, hx2, hxs, List.map_cons]

theorem broadcast_abort (pre post : List (ComponentId × Comp))
    (cid : ComponentId) (bad : Comp) (task : ComponentTask) (err : Error)
    (hok : ∀ pr ∈ pre, pr.2.taskDoneRes task = none)
    (hbad : bad.taskDoneRes task = some err) :
    broadcastTask (pre ++ (cid, bad) :: post) task =
      (pre.map (fun pr => ExtCall.paneTaskDone pr.1 task) ++
        [ExtCall.paneTaskDone cid task], some err) := by
  induction pre with
  | nil => simp [broadcastTask, hbad]
  | cons x xs ih =>
    have hx : x.2.taskDoneRes task = none := hok x (by simp)
    have hxs := ih (fun pr hpr => hok pr (by simp [hpr]))
    cases x with
    | mk xc xcomp =>
      have hx2 : xcomp.taskDoneRes task = none := hx
      simp only [List.cons_append, broadcastTask, hx2, List.append_eq, hxs,
        List.map_cons, List.cons_append]

/-- C5: a successfully completed payload is delivered to every live pane's
task_done entry point, in registry order; a pane whose task_done reports an
error aborts the broadcast (the panes after it are never reached) and that
error propagates out of the completion drain of the event loop (fatal). -/
theorem C5_task_broadcast (e : Editor) (task : ComponentTask)
    (pre post : List (ComponentId × Comp)) (cid : ComponentId) (bad : Comp)
    (err : Error) (rest : List JobPayload)
    (hsplit : e.components = pre ++ (cid, bad) :: post)
    (hok : ∀ pr ∈ pre, pr.2.taskDoneRes task = none)
    (hbad : bad.taskDoneRes task = some err) :
    (∀ (e2 : Editor), (∀ pr ∈ e2.components, pr.2.taskDoneRes task = none) →
      (e2.notify_task_done task).1 =
        e2.components.map (fun pr => ExtCall.paneTaskDone pr.1 task) ∧
      (e2.notify_task_done task).2 = Except.ok e2) ∧
    ((e.notify_task_done task).1 =
      pre.map (fun pr => ExtCall.paneTaskDone pr.1 task) ++
        [ExtCall.paneTaskDone cid task]) ∧
    (e.notify_task_done task).2 = Except.error err ∧
    (e.drainCompletions (JobPayload.okPayload task :: rest)).2 =
      Except.error err := by
  have habort := broadcast_abort pre post cid bad task err hok hbad
  refine ⟨?_, ?_, ?_, ?_⟩
  · intro e2 h2
    have hall := broadcast_all_ok e2.components task h2
    constructor
    · simp [Editor.notify_task_done, hall]
    · simp [Editor.notify_task_done, hall]
  · simp [Editor.notify_task_done, hsplit, habort]
  · simp [Editor.notify_task_done, hsplit, habort]
  · simp [Editor.drainCompletions, Editor.notify_task_done, hsplit, habort]

/-- Editor whose registry holds an inert pane, a task-failing pane, and a
further inert pane that the aborted broadcast never reaches. -/
def testEditorC5 : Editor :=
  { testEditor with components := [(2, inertComp), (3, taskFailComp), (4, inertComp)] }

/-- Witness for C5 at the three-pane registry with a failing middle pane. -/
theorem C5_task_broadcast_witness :
    testEditorC5.components =
      [(2, inertComp)] ++ (3, taskFailComp) :: [(4, inertComp)] ∧
    taskFailComp.taskDoneRes (ComponentTask.task 0) =
      some (Error.paneErr "pane task failure") ∧
    (testEditorC5.notify_task_done (ComponentTask.task 0)).1 =
      [ExtCall.paneTaskDone 2 (ComponentTask.task 0),
       ExtCall.paneTaskDone 3 (ComponentTask.task 0)] ∧
    (testEditorC5.notify_task_done (ComponentTask.task 0)).2 =
      Except.error (Error.paneErr "pane task failure") ∧
    (testEditorC5.drainCompletions
      [JobPayload.okPayload (ComponentTask.task 0)]).2 =
      Except.error (Error.paneErr "pane task failure") := by
  have H := C5_task_broadcast testEditorC5 (ComponentTask.task 0)
    [(2, inertComp)] [(4, inertComp)] 3 taskFailComp
    (Error.paneErr "pane task failure") [] rfl
    (by
      intro pr hpr
      rw [List.mem_singleton] at hpr
      subst hpr
      rfl)
    rfl
  exact ⟨rfl, rfl, H.2.1, H.2.2.1, H.2.2.2⟩

/-- C6: open_file on a path that does not exist logs "[New file]" and creates
a live pane (the registry grows by the freshly allocated id, which receives
focus); open_file on a permission-denied path logs a message naming the path,
creates no pane, and still returns Ok. -/
theorem C6_open_file (e : Editor) (path : String)
    (hthm : e.syntaxThemes.contains
      (((themes.get? e.theme_index).map (fun th => th.2.2)).getD "") = true) :
    (e.fs path = FileStat.absent →
      ExtCall.logError "[New file]" ∈ (e.open_file path).1 ∧
      ∃ e2, (e.open_file path).2 = Except.ok e2 ∧
        registryIds e2 = registryIds e ++ [e.next_component_id] ∧
        e2.focus = some e.next_component_id) ∧
    (e.fs path = FileStat.denied →
      ∃ e2, (e.open_file path).2 = Except.ok e2 ∧
        e2.prompt.logLine = some ("Permission denied while opening " ++ path) ∧
        e2.components = e.components) := by
  constructor
  · intro hfs
    unfold Editor.open_file
    simp only [hfs, beq_self_eq_true, if_true, logErr, hthm, bufferFromFile]
    refine ⟨by simp, _, rfl, ?_, rfl⟩
    simp [registryIds, Editor.add_component, insertComp]
  · intro hfs
    unfold Editor.open_file
    simp only [hfs, beq_iff_eq, reduceCtorEq, if_false, hthm, if_true,
      bufferFromFile, logErr]
    exact ⟨_, rfl, rfl, rfl⟩

/-- Base editor over a file system where every path is missing. -/
def testEditorAbsent : Editor := { testEditor with fs := fun _ => FileStat.absent }

/-- Base editor over a file system where every read is permission-denied. -/
def testEditorDenied : Editor := { testEditor with fs := fun _ => FileStat.denied }

/-- Witness for C6 on a missing path and on a permission-denied path. -/
theorem C6_open_file_witness :
    (testEditorAbsent.syntaxThemes.contains
      (((themes.get? testEditorAbsent.theme_index).map (fun th => th.2.2)).getD "") =
        true) ∧
    (ExtCall.logError "[New file]" ∈ (testEditorAbsent.open_file "a.txt").1 ∧
      ∃ e2, (testEditorAbsent.open_file "a.txt").2 = Except.ok e2 ∧
        registryIds e2 = registryIds testEditorAbsent ++
          [testEditorAbsent.next_component_id] ∧
        e2.focus = some testEditorAbsent.next_component_id) ∧
    (∃ e2, (testEditorDenied.open_file "b.txt").2 = Except.ok e2 ∧
      e2.prompt.logLine = some ("Permission denied while opening " ++ "b.txt") ∧
      e2.components = testEditorDenied.components) := by
  refine ⟨by decide, ?_, ?_⟩
  · exact (C6_open_file testEditorAbsent "a.txt" (by decide)).1 rfl
  · exact (C6_open_file testEditorDenied "b.txt" (by decide)).2 rfl

theorem shortcut_false {k : Key} (hk : isGlobalShortcut k = false) :
    (k == Key.ctrl 'o') = false ∧ (k == Key.ctrl 'q') = false ∧
    (k == Key.ctrl 't') = false := by
  unfold isGlobalShortcut at hk
  simp only [Bool.or_eq_false_iff] at hk
  exact ⟨hk.1.1, hk.1.2, hk.2⟩

theorem key_press_not_shortcut (e : Editor) (t : Nat) (k : Key) (frame : Rect)
    (hk : isGlobalShortcut k = false) :
    e.key_press t k frame =
      (ExtCall.clearLog ::
        (((clearLogE e).2.paneStage t k frame).1 ++
          ((((clearLogE e).2.paneStage t k frame).2).promptStage t k frame).1),
        ((((clearLogE e).2.paneStage t k frame).2).promptStage t k frame).2) := by
  obtain ⟨ho, hq, ht⟩ := shortcut_false hk
  unfold Editor.key_press
  simp only [ho, hq, ht, Bool.false_eq_true, if_false]
  rfl

theorem paneStage_fields (e : Editor) (t : Nat) (k : Key) (frame : Rect) :
    ((e.paneStage t k frame).2).promptOps = e.promptOps ∧
    ((e.paneStage t k frame).2).theme_index = e.theme_index ∧
    ((e.paneStage t k frame).2).jobPool = e.jobPool ∧
    ((e.paneStage t k frame).2).components = e.components ∧
    ((e.paneStage t k frame).2).fs = e.fs ∧
    ((e.paneStage t k frame).2).syntaxThemes = e.syntaxThemes := by
  unfold Editor.paneStage
  split <;> exact ⟨rfl, rfl, rfl, rfl, rfl, rfl⟩

theorem paneStage_theme (e : Editor) (t : Nat) (k : Key) (frame : Rect) :
    currentTheme ((e.paneStage t k frame).2) = currentTheme e := by
  unfold currentTheme
  rw [(paneStage_fields e t k frame).2.1]

theorem promptStage_trace (e : Editor) (t : Nat) (k : Key) (frame : Rect) :
    ∃ post, (e.promptStage t k frame).1 =
      ExtCall.promptKey k ⟨t, false, frame, 0, currentTheme e, e.jobPool⟩ :: post := by
  unfold Editor.promptStage
  cases e.promptOps.onKey k e.prompt with
  | error err => exact ⟨[], rfl⟩
  | ok p2 =>
    cases hc : p2.pollCmd with
    | none => exact ⟨[], by simp [hc]⟩
    | some cmd =>
      cases cmd with
      | openFile path =>
        simp only [hc]
        exact ⟨_, rfl⟩

theorem promptStage_ok (e : Editor) (t : Nat) (k : Key) (frame : Rect)
    (hp : ∀ p, ∃ q, e.promptOps.onKey k p = Except.ok q ∧ q.pollCmd = none) :
    ∃ e2, (e.promptStage t k frame).2 = Except.ok e2 := by
  obtain ⟨q, hq, hqc⟩ := hp e.prompt
  unfold Editor.promptStage
  rw [hq]
  simp [hqc]

theorem promptStage_error (e : Editor) (t : Nat) (k : Key) (frame : Rect)
    (err : Error) (hp : e.promptOps.onKey k e.prompt = Except.error err) :
    (e.promptStage t k frame).2 = Except.error err := by
  unfold Editor.promptStage
  rw [hp]

theorem paneStage_eq (e : Editor) (t : Nat) (k : Key) (frame : Rect)
    (fz : ComponentId) (hactive : e.prompt.active = false)
    (hfocus : e.focus = some fz) :
    (e.paneStage t k frame).1 =
      (dispatchToFocused e.components fz k t (currentTheme e) e.jobPool
        (e.layout.compute frame 1).1 e.prompt).1 := by
  unfold Editor.paneStage
  rw [hactive, hfocus]
  rfl

theorem dispatch_paneKey_mem (comps : List (ComponentId × Comp))
    (fz : ComponentId) (k : Key) (t : Nat) (thm : Theme) (jp : JobPool)
    (laid : List LaidComponentId) (p : Prompt) (l : LaidComponentId) (c : Comp)
    (hl : l ∈ laid) (hid : l.id = fz) (hc : lookupComp comps fz = some c) :
    ExtCall.paneKey fz k ⟨t, true, l.frame, l.frame_id, thm, jp⟩ ∈
      (dispatchToFocused comps fz k t thm jp laid p).1 := by
  induction laid generalizing p with
  | nil => cases hl
  | cons x xs ih =>
    rcases List.mem_cons.mp hl with rfl | hmem
    · cases hres : c.keyPressRes k ⟨t, true, l.frame, l.frame_id, thm, jp⟩ with
      | none => simp [dispatchToFocused, hid, hc, hres]
      | some err2 => simp [dispatchToFocused, hid, hc, hres]
    · by_cases hx : x.id = fz
      · rw [dispatchToFocused, if_pos hx, hx, hc]
        cases hres : c.keyPressRes k ⟨t, true, x.frame, x.frame_id, thm, jp⟩ with
        | none =>
          simp only [hres]
          exact List.mem_cons_of_mem _ (ih _ hmem)
        | some err2 =>
          simp only [hres]
          exact List.mem_cons_of_mem _ (List.mem_cons_of_mem _ (ih _ hmem))
      · rw [dispatchToFocused, if_neg hx]
        exact ih _ hmem

theorem dispatch_logError_mem (comps : List (ComponentId × Comp))
    (fz : ComponentId) (k : Key) (t : Nat) (thm : Theme) (jp : JobPool)
    (laid : List LaidComponentId) (p : Prompt) (l : LaidComponentId) (c : Comp)
    (err : Error) (hl : l ∈ laid) (hid : l.id = fz)
    (hc : lookupComp comps fz = some c)
    (hres : c.keyPressRes k ⟨t, true, l.frame, l.frame_id, thm, jp⟩ = some err) :
    ExtCall.logError (errMsg err) ∈
      (dispatchToFocused comps fz k t thm jp laid p).1 := by
  induction laid generalizing p with
  | nil => cases hl
  | cons x xs ih =>
    rcases List.mem_cons.mp hl with rfl | hmem
    · rw [dispatchToFocused, if_pos hid, hid, hc]
      simp only [hres]
      exact List.mem_cons_of_mem _ (List.mem_cons_self _ _)
    · by_cases hx : x.id = fz
      · rw [dispatchToFocused, if_pos hx, hx, hc]
        cases hres2 : c.keyPressRes k ⟨t, true, x.frame, x.frame_id, thm, jp⟩ with
        | none =>
          simp only [hres2]
          exact List.mem_cons_of_mem _ (ih _ hmem)
        | some err2 =>
          simp only [hres2]
          exact List.mem_cons_of_mem _ (List.mem_cons_of_mem _ (ih _ hmem))
      · rw [dispatchToFocused, if_neg hx]
        exact ih _ hmem

/-- C4: key dispatch precedence. (a) the global shortcuts Ctrl-o, Ctrl-q and
Ctrl-t short-circuit inside key_press (their trace shows no pane or prompt
dispatch, only the unconditional log clearing) and Ctrl-c quits the event
loop before any dispatch; (b) otherwise, with the prompt inactive and a pane
focused, that pane's key_press is invoked with a context carrying the
timestamp, the focused flag, the laid rect, the frame id, the active theme
and the job-pool handle, and an error it returns is logged to the prompt's
log line without making key_press fail; (c) the prompt's key_press always
receives the key afterwards. -/
theorem C4_key_dispatch (e : Editor) (t : Nat) (frame : Rect) (k : Key)
    (fz : ComponentId) (c : Comp) (l : LaidComponentId) (err : Error)
    (hk : isGlobalShortcut k = false)
    (hactive : e.prompt.active = false)
    (hfocus : e.focus = some fz)
    (hl : l ∈ (e.layout.compute frame 1).1)
    (hlid : l.id = fz)
    (hc : lookupComp e.components fz = some c) :
    ((e.key_press t (Key.ctrl 'o') frame).1 = [ExtCall.clearLog]) ∧
    ((e.key_press t (Key.ctrl 'q') frame).1 = [ExtCall.clearLog]) ∧
    (∃ m, (e.key_press t (Key.ctrl 't') frame).1 =
      [ExtCall.clearLog, ExtCall.logError m]) ∧
    (∀ rest, e.keyBurst t (Key.ctrl 'c' :: rest) frame =
      ([], Sum.inr LoopExit.quit)) ∧
    ExtCall.paneKey fz k ⟨t, true, l.frame, l.frame_id, currentTheme e, e.jobPool⟩ ∈
      (e.key_press t k frame).1 ∧
    (c.keyPressRes k ⟨t, true, l.frame, l.frame_id, currentTheme e, e.jobPool⟩ =
        some err →
      ExtCall.logError (errMsg err) ∈ (e.key_press t k frame).1) ∧
    ((∀ p, ∃ q, e.promptOps.onKey k p = Except.ok q ∧ q.pollCmd = none) →
      ∃ e2, (e.key_press t k frame).2 = Except.ok e2) ∧
    (∃ pre post, (e.key_press t k frame).1 =
      pre ++ ExtCall.promptKey k
        ⟨t, false, frame, 0, currentTheme e, e.jobPool⟩ :: post ∧
      ExtCall.paneKey fz k
        ⟨t, true, l.frame, l.frame_id, currentTheme e, e.jobPool⟩ ∈ pre) ∧
    (∀ (e3 : Editor) (k3 : Key), isGlobalShortcut k3 = false →
      ∃ pre post, (e3.key_press t k3 frame).1 =
        pre ++ ExtCall.promptKey k3
          ⟨t, false, frame, 0, currentTheme e3, e3.jobPool⟩ :: post) := by
  have hkp := key_press_not_shortcut e t k frame hk
  have hactiveC : (clearLogE e).2.prompt.active = false := hactive
  have hfocusC : (clearLogE e).2.focus = some fz := hfocus
  have hpane := paneStage_eq (clearLogE e).2 t k frame fz hactiveC hfocusC
  have hmemPane : ExtCall.paneKey fz k
      ⟨t, true, l.frame, l.frame_id, currentTheme e, e.jobPool⟩ ∈
      (((clearLogE e).2.paneStage t k frame)).1 := by
    rw [hpane]
    exact dispatch_paneKey_mem e.components fz k t (currentTheme e) e.jobPool
      (e.layout.compute frame 1).1 (clearLogE e).2.prompt l c hl hlid hc
  refine ⟨rfl, rfl, ⟨_, rfl⟩, fun rest => rfl, ?_, ?_, ?_, ?_, ?_⟩
  · rw [hkp]
    exact List.mem_cons_of_mem _ (List.mem_append_left _ hmemPane)
  · intro hres
    rw [hkp]
    refine List.mem_cons_of_mem _ (List.mem_append_left _ ?_)
    rw [hpane]
    exact dispatch_logError_mem e.components fz k t (currentTheme e) e.jobPool
      (e.layout.compute frame 1).1 (clearLogE e).2.prompt l c err hl hlid hc hres
  · intro hp
    have hps : (((clearLogE e).2.paneStage t k frame).2).promptOps = e.promptOps :=
      (paneStage_fields (clearLogE e).2 t k frame).1
    have hp2 : ∀ p, ∃ q,
        (((clearLogE e).2.paneStage t k frame).2).promptOps.onKey k p =
          Except.ok q ∧ q.pollCmd = none := by
      rw [hps]
      exact hp
    obtain ⟨e2, he2⟩ :=
      promptStage_ok (((clearLogE e).2.paneStage t k frame).2) t k frame hp2
    refine ⟨e2, ?_⟩
    rw [hkp]
    exact he2
  · obtain ⟨post, hpost⟩ :=
      promptStage_trace (((clearLogE e).2.paneStage t k frame).2) t k frame
    have hctx : (⟨t, false, frame, 0,
        currentTheme (((clearLogE e).2.paneStage t k frame).2),
        (((clearLogE e).2.paneStage t k frame).2).jobPool⟩ : Context) =
        ⟨t, false, frame, 0, currentTheme e, e.jobPool⟩ := by
      rw [paneStage_theme, (paneStage_fields (clearLogE e).2 t k frame).2.2.1]
      rfl
    rw [hctx] at hpost
    refine ⟨ExtCall.clearLog :: ((clearLogE e).2.paneStage t k frame).1, post, ?_, ?_⟩
    · rw [hkp]
      simp only [hpost, List.cons_append, List.append_assoc]
    · exact List.mem_cons_of_mem _ hmemPane
  · intro e3 k3 hk3
    obtain ⟨post, hpost⟩ :=
      promptStage_trace (((clearLogE e3).2.paneStage t k3 frame).2) t k3 frame
    have hctx : (⟨t, false, frame, 0,
        currentTheme (((clearLogE e3).2.paneStage t k3 frame).2),
        (((clearLogE e3).2.paneStage t k3 frame).2).jobPool⟩ : Context) =
        ⟨t, false, frame, 0, currentTheme e3, e3.jobPool⟩ := by
      rw [paneStage_theme, (paneStage_fields (clearLogE e3).2 t k3 frame).2.2.1]
      rfl
    rw [hctx] at hpost
    refine ⟨ExtCall.clearLog :: ((clearLogE e3).2.paneStage t k3 frame).1, post, ?_⟩
    rw [key_press_not_shortcut e3 t k3 frame hk3]
    simp only [hpost, List.cons_append, List.append_assoc]

/-- Editor holding exactly one pane (id 2) whose key press always fails. -/
def testEditorKeyFail : Editor := (testEditor.add_component keyFailComp).1

/-- Context handed to the focused pane 2 on a key press in the one-pane
editor. -/
def testCtxPane : Context := ⟨0, true, ⟨0, 0, 80, 23⟩, 1, Theme.gruvbox, ⟨0⟩⟩

/-- Context handed to the prompt on a key press over the test frame. -/
def testCtxPrompt : Context := ⟨0, false, testFrame, 0, Theme.gruvbox, ⟨0⟩⟩

/-- Witness for C4 at the one-pane editor with a failing pane and the plain
key x. -/
theorem C4_key_dispatch_witness :
    isGlobalShortcut (Key.char 'x') = false ∧
    testEditorKeyFail.prompt.active = false ∧
    testEditorKeyFail.focus = some 2 ∧
    (⟨2, ⟨0, 0, 80, 23⟩, 1⟩ : LaidComponentId) ∈
      (testEditorKeyFail.layout.compute testFrame 1).1 ∧
    lookupComp testEditorKeyFail.components 2 = some keyFailComp ∧
    (((testEditorKeyFail.key_press 0 (Key.ctrl 'o') testFrame).1 =
      [ExtCall.clearLog]) ∧
    ((testEditorKeyFail.key_press 0 (Key.ctrl 'q') testFrame).1 =
      [ExtCall.clearLog]) ∧
    (∃ m, (testEditorKeyFail.key_press 0 (Key.ctrl 't') testFrame).1 =
      [ExtCall.clearLog, ExtCall.logError m]) ∧
    (∀ rest, testEditorKeyFail.keyBurst 0 (Key.ctrl 'c' :: rest) testFrame =
      ([], Sum.inr LoopExit.quit)) ∧
    ExtCall.paneKey 2 (Key.char 'x') testCtxPane ∈
      (testEditorKeyFail.key_press 0 (Key.char 'x') testFrame).1 ∧
    (keyFailComp.keyPressRes (Key.char 'x') testCtxPane =
        some (Error.paneErr "pane key failure") →
      ExtCall.logError (errMsg (Error.paneErr "pane key failure")) ∈
        (testEditorKeyFail.key_press 0 (Key.char 'x') testFrame).1) ∧
    ((∀ p, ∃ q, testEditorKeyFail.promptOps.onKey (Key.char 'x') p =
        Except.ok q ∧ q.pollCmd = none) →
      ∃ e2, (testEditorKeyFail.key_press 0 (Key.char 'x') testFrame).2 =
        Except.ok e2) ∧
    (∃ pre post, (testEditorKeyFail.key_press 0 (Key.char 'x') testFrame).1 =
      pre ++ ExtCall.promptKey (Key.char 'x') testCtxPrompt :: post ∧
      ExtCall.paneKey 2 (Key.char 'x') testCtxPane ∈ pre) ∧
    (∀ (e3 : Editor) (k3 : Key), isGlobalShortcut k3 = false →
      ∃ pre post, (e3.key_press 0 k3 testFrame).1 =
        pre ++ ExtCall.promptKey k3
          ⟨0, false, testFrame, 0, currentTheme e3, e3.jobPool⟩ :: post)) :=
  ⟨by decide, rfl, rfl, by decide, rfl,
    C4_key_dispatch testEditorKeyFail 0 testFrame (Key.char 'x') 2 keyFailComp
      ⟨2, ⟨0, 0, 80, 23⟩, 1⟩ (Error.paneErr "pane key failure") (by decide) rfl rfl
      (by decide) rfl rfl⟩

/-- C10: when the prompt's own key_press fails, Editor::key_press propagates
that error and the key-handling step of the event loop ends with it (fatal);
by contrast, when the prompt's key_press succeeds (polling no command), a
focused pane's key_press failure never makes key_press fail. -/
theorem C10_prompt_error_fatal (e : Editor) (t : Nat) (k : Key) (frame : Rect)
    (err : Error)
    (hk : isGlobalShortcut k = false)
    (hcc : (k == Key.ctrl 'c') = false)
    (hp : ∀ p, e.promptOps.onKey k p = Except.error err) :
    (e.key_press t k frame).2 = Except.error err ∧
    (e.keyBurst t [k] frame).2 = Sum.inr (LoopExit.fatal err) ∧
    (∀ (e2 : Editor),
      (∀ p, ∃ q, e2.promptOps.onKey k p = Except.ok q ∧ q.pollCmd = none) →
      ∃ e3, (e2.key_press t k frame).2 = Except.ok e3) := by
  have hkp := key_press_not_shortcut e t k frame hk
  have hps : (((clearLogE e).2.paneStage t k frame).2).promptOps = e.promptOps :=
    (paneStage_fields (clearLogE e).2 t k frame).1
  have herr : (((clearLogE e).2.paneStage t k frame).2).promptOps.onKey k
      (((clearLogE e).2.paneStage t k frame).2).prompt = Except.error err := by
    rw [hps]
    exact hp _
  have h1 : (e.key_press t k frame).2 = Except.error err := by
    rw [hkp]
    exact promptStage_error _ t k frame err herr
  refine ⟨h1, ?_, ?_⟩
  · unfold Editor.keyBurst
    simp only [hcc, Bool.false_eq_true, if_false, h1]
  · intro e2 hp2
    have hps2 : (((clearLogE e2).2.paneStage t k frame).2).promptOps =
        e2.promptOps := (paneStage_fields (clearLogE e2).2 t k frame).1
    have hp3 : ∀ p, ∃ q,
        (((clearLogE e2).2.paneStage t k frame).2).promptOps.onKey k p =
          Except.ok q ∧ q.pollCmd = none := by
      rw [hps2]
      exact hp2
    obtain ⟨e3, he3⟩ :=
      promptStage_ok (((clearLogE e2).2.paneStage t k frame).2) t k frame hp3
    refine ⟨e3, ?_⟩
    rw [key_press_not_shortcut e2 t k frame hk]
    exact he3

/-- One-pane editor whose prompt rejects every key. -/
def testEditorPromptFail : Editor :=
  { (testEditor.add_component inertComp).1 with promptOps := failPromptOps }

/-- Witness for C10 at the editor whose prompt rejects every key. -/
theorem C10_prompt_error_fatal_witness :
    isGlobalShortcut (Key.char 'x') = false ∧
    ((Key.char 'x' == Key.ctrl 'c') = false) ∧
    (testEditorPromptFail.key_press 0 (Key.char 'x') testFrame).2 =
      Except.error (Error.paneErr "prompt key failure") ∧
    (testEditorPromptFail.keyBurst 0 [Key.char 'x'] testFrame).2 =
      Sum.inr (LoopExit.fatal (Error.paneErr "prompt key failure")) := by
  have H := C10_prompt_error_fatal testEditorPromptFail 0 (Key.char 'x') testFrame
    (Error.paneErr "prompt key failure") (by decide) (by decide) (fun p => rfl)
  exact ⟨by decide, by decide, H.1, H.2.1⟩

end Zee
